import Mathlib

/-!
# Verification of the peer-connection orchestration layer of novpncord

A shallow embedding of `src/components/MediaControls.tsx`: the React state of
the `MediaControls` component becomes an explicit record `MCState`, each
handler becomes a pure transition function, and the asynchronous values the
browser environment produces (`getUserMedia`, `getDisplayMedia`,
`createOffer`, `createAnswer` results) become parameters of those functions.
Calls on external handles (`track.stop()`, `connection.close()`, sends over
the signaling channel) are returned as explicit outputs.
-/

namespace NovPNCord

/-- The kind of a media track, mirroring `MediaStreamTrack.kind`
(the source compares against the string `'video'`; `aud` stands for
`'audio'`, `vid` for `'video'`). -/
inductive TrackKind
  | aud
  | vid
deriving DecidableEq, Repr

/-- A `MediaStreamTrack`: an identity (so that "the same track object"
is expressible in a by-value model), its kind, its `enabled` flag
(flipped by mute) and whether `stop()` has been called on it. -/
structure MediaStreamTrack where
  id : Nat
  kind : TrackKind
  enabled : Bool := true
  stopped : Bool := false
deriving DecidableEq, Repr

/-- A `MediaStream` is its list of tracks. -/
structure MediaStream where
  tracks : List MediaStreamTrack
deriving DecidableEq, Repr

/-- `stream.getTracks()`. -/
def MediaStream.getTracks (s : MediaStream) : List MediaStreamTrack :=
  s.tracks

/-- `stream.getAudioTracks()`. -/
def MediaStream.getAudioTracks (s : MediaStream) : List MediaStreamTrack :=
  s.tracks.filter (fun t => t.kind == TrackKind.aud)

/-- `stream.getVideoTracks()`. -/
def MediaStream.getVideoTracks (s : MediaStream) : List MediaStreamTrack :=
  s.tracks.filter (fun t => t.kind == TrackKind.vid)

/-- An SDP session description (`RTCSessionDescription`); its content is
not inspected by the orchestration layer, so a bare tag suffices. -/
structure RTCSessionDescription where
  sdp : Nat
deriving DecidableEq, Repr

/-- An ICE candidate (`RTCIceCandidate`); not inspected by the orchestration layer. -/
structure RTCIceCandidate where
  cand : Nat
deriving DecidableEq, Repr

/-- An `RTCRtpSender`: the outbound track attachment slot of a connection. -/
structure RTCRtpSender where
  track : Option MediaStreamTrack
deriving DecidableEq, Repr

/-- `s.track?.kind === 'video'` — the predicate used by
`getSenders().find(...)` in `toggleScreenShare` (lines 172-182, 201-209). -/
def senderIsVideo (s : RTCRtpSender) : Bool :=
  match s.track with
  | some t => t.kind == TrackKind.vid
  | none => false

/-- An `RTCPeerConnection`: its sender list (one sender per `addTrack`),
its local and remote descriptions, the candidates handed to
`addIceCandidate`, and whether `close()` has been called. -/
structure RTCPeerConnection where
  senders : List RTCRtpSender := []
  localDescription : Option RTCSessionDescription := none
  remoteDescription : Option RTCSessionDescription := none
  addedCandidates : List RTCIceCandidate := []
  closed : Bool := false
deriving DecidableEq, Repr

/-- `pc.addTrack(track, stream)`: appends a sender holding the track. -/
def RTCPeerConnection.addTrack (pc : RTCPeerConnection)
    (t : MediaStreamTrack) : RTCPeerConnection :=
  { pc with senders := pc.senders ++ [{ track := some t }] }

/-- `pc.setLocalDescription(d)`. -/
def RTCPeerConnection.setLocalDescription (pc : RTCPeerConnection)
    (d : RTCSessionDescription) : RTCPeerConnection :=
  { pc with localDescription := some d }

/-- `pc.setRemoteDescription(d)`. -/
def RTCPeerConnection.setRemoteDescription (pc : RTCPeerConnection)
    (d : RTCSessionDescription) : RTCPeerConnection :=
  { pc with remoteDescription := some d }

/-- `pc.addIceCandidate(c)`. -/
def RTCPeerConnection.addIceCandidate (pc : RTCPeerConnection)
    (c : RTCIceCandidate) : RTCPeerConnection :=
  { pc with addedCandidates := pc.addedCandidates ++ [c] }

/-- `pc.close()`. -/
def RTCPeerConnection.close (pc : RTCPeerConnection) : RTCPeerConnection :=
  { pc with closed := true }

/-- Rewrite, in place, the first element satisfying `p` — the by-value
rendering of `list.find(p)` followed by a mutation of the found object. -/
def replaceFirst (p : α → Bool) (f : α → α) : List α → List α
  | [] => []
  | a :: as => if p a then f a :: as else a :: replaceFirst p f as

/-- The source's `interface PeerConnection` (lines 11-15): one registry
entry per remote participant. -/
structure PeerConnection where
  userId : String
  connection : RTCPeerConnection
  stream : Option MediaStream := none
deriving DecidableEq, Repr

/-- The `useState` fields of the `MediaControls` component (lines 18-24). -/
structure MCState where
  isInCall : Bool := false
  isMuted : Bool := false
  isVideoOn : Bool := false
  isScreenSharing : Bool := false
  localStream : Option MediaStream := none
  screenStream : Option MediaStream := none
  peerConnections : List PeerConnection := []
deriving DecidableEq, Repr

/-- The component's initial state: every flag `false`, no stream, no session. -/
def idleState : MCState := {}

/-- The kind tag of an outgoing broadcast (`event:` field of `channel.send`). -/
inductive SignalKind
  | offerK
  | answerK
  | iceCandidateK
deriving DecidableEq, Repr

/-- An outgoing signaling envelope as `channel.send` publishes it
(`payload: { to, from, ... }`; `from` is a Lean keyword, hence `from_`). -/
structure Envelope where
  kind : SignalKind
  to_ : String
  from_ : String
  offer : Option RTCSessionDescription := none
  answer : Option RTCSessionDescription := none
  candidate : Option RTCIceCandidate := none
deriving DecidableEq, Repr

/-- The payload of an incoming `offer` broadcast (fields read by
`handleOffer`: `payload.to`, `payload.from`, `payload.offer`). -/
structure OfferPayload where
  to_ : String
  from_ : String
  offer : RTCSessionDescription
deriving DecidableEq, Repr

/-- The payload of an incoming `answer` broadcast (fields read by
`handleAnswer`). -/
structure AnswerPayload where
  to_ : String
  from_ : String
  answer : RTCSessionDescription
deriving DecidableEq, Repr

/-- The payload of an incoming `ice-candidate` broadcast; `handleIceCandidate`
checks `payload.candidate` for truthiness, so the field is optional. -/
structure IcePayload where
  to_ : String
  from_ : String
  candidate : Option RTCIceCandidate
deriving DecidableEq, Repr

/-- An incoming broadcast on the `webrtc_` channel (lines 41-57). -/
inductive Incoming
  | offerMsg (p : OfferPayload)
  | answerMsg (p : AnswerPayload)
  | iceMsg (p : IcePayload)
deriving DecidableEq, Repr

/-- The `to` field of an incoming broadcast's payload. -/
def Incoming.to_ : Incoming → String
  | .offerMsg p => p.to_
  | .answerMsg p => p.to_
  | .iceMsg p => p.to_

/-- `createPeerConnection(userId, stream, initiator)`, lines 216-277:
builds a fresh connection, attaches every track of `stream`, when
`initiator` stores a generated offer (`offerDesc`, produced by the
environment's `pc.createOffer()`) as the local description and sends an
offer envelope to `userId`, then inserts the entry into `peerConnections`
unless one with the same `userId` already exists (lines 272-276).
The `onicecandidate`/`ontrack` callbacks install environment-driven
behavior and are not part of this synchronous transition. -/
def createPeerConnection (selfId : String) (offerDesc : RTCSessionDescription)
    (userId : String) (stream : MediaStream) (initiator : Bool)
    (s : MCState) : MCState × List Envelope :=
  let pc0 : RTCPeerConnection :=
    stream.getTracks.foldl (fun pc t => pc.addTrack t) {}
  let pc : RTCPeerConnection :=
    if initiator then pc0.setLocalDescription offerDesc else pc0
  let sent : List Envelope :=
    if initiator then
      [{ kind := SignalKind.offerK, to_ := userId, from_ := selfId,
         offer := some offerDesc }]
    else []
  let pcs : List PeerConnection :=
    if s.peerConnections.any (fun p => p.userId == userId) then
      s.peerConnections
    else
      s.peerConnections ++ [{ userId := userId, connection := pc }]
  ({ s with peerConnections := pcs }, sent)

/-- The loop body of `startCall` (lines 77-81): for every participant other
than the local user, `createPeerConnection(participant.user_id, stream, true)`.
`offers` supplies the offer description the environment generates per peer. -/
def startCallLoop (selfId : String) (offers : String → RTCSessionDescription)
    (stream : MediaStream) (ps : List String)
    (acc : MCState × List Envelope) : MCState × List Envelope :=
  match ps with
  | [] => acc
  | pid :: rest =>
    if pid == selfId then
      startCallLoop selfId offers stream rest acc
    else
      let r := createPeerConnection selfId (offers pid) pid stream true acc.1
      startCallLoop selfId offers stream rest (r.1, acc.2 ++ r.2)

/-- `startCall`, lines 66-86. `gum` is the result of
`getUserMedia({audio: true, video: false})`: `none` models a rejection
(permission or device error), in which case the handler only logs and
alerts — no state change, no session, no envelope. On success the local
stream is stored, `isInCall` set, `isMuted` cleared, and a session is
initiated toward every listed participant other than the local user. -/
def startCall (selfId : String) (gum : Option MediaStream)
    (offers : String → RTCSessionDescription) (participants : List String)
    (s : MCState) : MCState × List Envelope :=
  match gum with
  | none => (s, [])
  | some stream =>
    startCallLoop selfId offers stream participants
      ({ s with localStream := some stream, isInCall := true, isMuted := false }, [])

/-- The external effects of `endCall`: which tracks were stopped and which
connections were closed (calls on handles the cleared state no longer
references). -/
structure EndCallEffects where
  stoppedTracks : List MediaStreamTrack := []
  closedConnections : List RTCPeerConnection := []
deriving DecidableEq, Repr

/-- `track.stop()`. -/
def MediaStreamTrack.stop (t : MediaStreamTrack) : MediaStreamTrack :=
  { t with stopped := true }

/-- `endCall`, lines 88-108: stops every track of the local stream and of
the screen stream, closes every connection in the registry, then resets
every piece of component state to its initial value. -/
def endCall (s : MCState) : MCState × EndCallEffects :=
  let stopped : List MediaStreamTrack :=
    ((s.localStream.map MediaStream.getTracks).getD []).map MediaStreamTrack.stop ++
    ((s.screenStream.map MediaStream.getTracks).getD []).map MediaStreamTrack.stop
  let closed : List RTCPeerConnection :=
    s.peerConnections.map (fun p => p.connection.close)
  ({ isInCall := false, isMuted := false, isVideoOn := false,
     isScreenSharing := false, localStream := none, screenStream := none,
     peerConnections := [] },
   { stoppedTracks := stopped, closedConnections := closed })

/-- `toggleMute`, lines 110-118: with a held local stream whose first audio
track exists, flips that track's `enabled` flag in place and sets `isMuted`
to the negation of the new flag; otherwise does nothing. -/
def toggleMute (s : MCState) : MCState :=
  match s.localStream with
  | none => s
  | some ls =>
    match ls.getAudioTracks.head? with
    | none => s
    | some audioTrack =>
      let newEnabled := !audioTrack.enabled
      let ls' : MediaStream :=
        ⟨replaceFirst (fun t => t.kind == TrackKind.aud)
          (fun t => { t with enabled := newEnabled }) ls.tracks⟩
      { s with localStream := some ls', isMuted := !newEnabled }

/-- The branch body `toggleScreenShare` runs on every registry entry when
turning screen share on (lines 172-182): replace the track of the first
video sender in place when one exists, otherwise `addTrack` the screen
track. -/
def attachScreenTrack (videoTrack : MediaStreamTrack)
    (pc : RTCPeerConnection) : RTCPeerConnection :=
  if pc.senders.any senderIsVideo then
    let senders' := replaceFirst senderIsVideo
      (fun sd => { sd with track := some videoTrack }) pc.senders
    { pc with senders := senders' }
  else
    pc.addTrack videoTrack

/-- The branch body run on every registry entry when turning screen share
off with a held local stream and camera on (lines 200-209): when a video
sender exists and the local stream has a video track, put that camera track
back on the sender; otherwise leave the connection alone. -/
def restoreCameraTrack (videoTrack? : Option MediaStreamTrack)
    (pc : RTCPeerConnection) : RTCPeerConnection :=
  match videoTrack? with
  | some vt =>
    if pc.senders.any senderIsVideo then
      let senders' := replaceFirst senderIsVideo
        (fun sd => { sd with track := some vt }) pc.senders
      { pc with senders := senders' }
    else pc
  | none => pc

/-- `toggleScreenShare`, lines 160-214. `gdm` is the result of
`getDisplayMedia({video: true, audio: true})`: `none` models a rejection
(user cancelled / capture unavailable), `some (stream, videoTrack)` a
success with `videoTrack = stream.getVideoTracks()[0]` (display capture
requested with `video: true` always carries a video track). On success the
screen stream is stored, every session's outbound video sender is switched
to the screen track (or the track added where no video sender exists), and
the flag is set. Turning off stops and drops the screen stream and, if a
local stream is held and the camera flag is on, puts the camera track back
on every session's video sender; `gdm` is not consulted on this branch.
The `onended` registration at lines 184-187 is the separate transition
`screenTrackOnEnded`. -/
def toggleScreenShare (gdm : Option (MediaStream × MediaStreamTrack))
    (s : MCState) : MCState :=
  if !s.isScreenSharing then
    match gdm with
    | none => s
    | some (stream, videoTrack) =>
      let pcs := s.peerConnections.map
        (fun p => { p with connection := attachScreenTrack videoTrack p.connection })
      { s with screenStream := some stream, peerConnections := pcs,
               isScreenSharing := true }
  else
    let s1 := { s with screenStream := none }
    let s2 :=
      match s.localStream with
      | some ls =>
        if s.isVideoOn then
          let pcs := s1.peerConnections.map
            (fun (p : PeerConnection) =>
              { p with connection := restoreCameraTrack ls.getVideoTracks.head? p.connection })
          { s1 with peerConnections := pcs }
        else s1
      | none => s1
    { s2 with isScreenSharing := false }

/-- The `onended` callback registered on the screen video track
(lines 184-187): fires when the user stops sharing via the OS/browser
chrome; it clears the flag and drops the screen stream, and nothing else. -/
def screenTrackOnEnded (s : MCState) : MCState :=
  { s with isScreenSharing := false, screenStream := none }

/-- `handleOffer`, lines 279-324: with no held local stream, returns at
once (no connection, no answer). Otherwise builds a fresh connection,
attaches every track of the local stream, sets the remote description from
the offer payload, sets the generated answer (`answerDesc`, produced by the
environment's `pc.createAnswer()`) as the local description, sends an
answer envelope to the offer's sender, and appends a registry entry for
that sender — with no check for an existing entry (line 323). -/
def handleOffer (selfId : String) (answerDesc : RTCSessionDescription)
    (payload : OfferPayload) (s : MCState) : MCState × List Envelope :=
  match s.localStream with
  | none => (s, [])
  | some ls =>
    let pc0 : RTCPeerConnection :=
      ls.getTracks.foldl (fun pc t => pc.addTrack t) {}
    let pc := (pc0.setRemoteDescription payload.offer).setLocalDescription answerDesc
    let pcs := s.peerConnections ++ [{ userId := payload.from_, connection := pc }]
    ({ s with peerConnections := pcs },
     [{ kind := SignalKind.answerK, to_ := payload.from_, from_ := selfId,
        answer := some answerDesc }])

/-- `handleAnswer`, lines 326-333: finds the registry entry whose `userId`
matches the payload's sender and sets its connection's remote description;
with no such entry, does nothing. -/
def handleAnswer (payload : AnswerPayload) (s : MCState) : MCState :=
  let pcs := replaceFirst (fun p => p.userId == payload.from_)
    (fun p =>
      { p with connection := p.connection.setRemoteDescription payload.answer })
    s.peerConnections
  { s with peerConnections := pcs }

/-- `handleIceCandidate`, lines 335-342: when the payload carries a
candidate and a registry entry for the sender exists, adds the candidate to
that entry's connection; otherwise does nothing — there is no buffer. -/
def handleIceCandidate (payload : IcePayload) (s : MCState) : MCState :=
  match payload.candidate with
  | none => s
  | some c =>
    let pcs := replaceFirst (fun p => p.userId == payload.from_)
      (fun p => { p with connection := p.connection.addIceCandidate c })
      s.peerConnections
    { s with peerConnections := pcs }

/-- The broadcast subscription of the signaling channel (lines 41-57):
each of the three handlers runs only when the payload's `to` field equals
the local user's id; every other envelope is dropped at the boundary. -/
def onBroadcast (selfId : String) (answerDesc : RTCSessionDescription)
    (msg : Incoming) (s : MCState) : MCState × List Envelope :=
  match msg with
  | .offerMsg p =>
    if p.to_ == selfId then handleOffer selfId answerDesc p s else (s, [])
  | .answerMsg p =>
    if p.to_ == selfId then (handleAnswer p s, []) else (s, [])
  | .iceMsg p =>
    if p.to_ == selfId then (handleIceCandidate p s, []) else (s, [])

/-- The `MediaControls` component: its state plus the `participants` prop
(the room's online occupants, passed by `ChatRoom` which loads them with
`.eq('is_online', true)`). -/
structure Component where
  roster : List String
  state : MCState
deriving DecidableEq, Repr

/-- An external event the component reacts to. Asynchronous environment
results (`getUserMedia`, `getDisplayMedia`, generated descriptions) ride on
the event. `rosterChange` is a re-render with a new `participants` prop:
the component's sole effect hook (lines 38-64) depends only on `roomId` and
`user`, so no session-management code observes it — it only replaces the
prop. -/
inductive Event
  | startCallEv (gum : Option MediaStream) (offers : String → RTCSessionDescription)
  | endCallEv
  | toggleMuteEv
  | toggleScreenShareEv (gdm : Option (MediaStream × MediaStreamTrack))
  | screenEndedEv
  | broadcastEv (answerDesc : RTCSessionDescription) (msg : Incoming)
  | rosterChange (ps : List String)

/-- One step of the component: dispatches an event to the handler the
source binds it to. -/
def applyEvent (selfId : String) (e : Event) (c : Component) :
    Component × List Envelope :=
  match e with
  | .startCallEv gum offers =>
    let r := startCall selfId gum offers c.roster c.state
    ({ c with state := r.1 }, r.2)
  | .endCallEv => ({ c with state := (endCall c.state).1 }, [])
  | .toggleMuteEv => ({ c with state := toggleMute c.state }, [])
  | .toggleScreenShareEv gdm =>
    ({ c with state := toggleScreenShare gdm c.state }, [])
  | .screenEndedEv => ({ c with state := screenTrackOnEnded c.state }, [])
  | .broadcastEv ans msg =>
    let r := onBroadcast selfId ans msg c.state
    ({ c with state := r.1 }, r.2)
  | .rosterChange ps => ({ c with roster := ps }, [])

/-! ## Helper lemmas about the embedding's building blocks -/

/-- `replaceFirst` leaves a list alone when no element satisfies the
predicate — the `find(...)`-missed case of the source's handlers. -/
theorem replaceFirst_of_forall_neg {p : α → Bool} {f : α → α} {l : List α}
    (h : ∀ a ∈ l, p a = false) : replaceFirst p f l = l := by
  induction l with
  | nil => rfl
  | cons a as ih =>
    have ha := h a (List.mem_cons_self a as)
    have ih' := ih fun b hb => h b (List.mem_cons_of_mem a hb)
    simp [replaceFirst, ha, ih']

/-- `replaceFirst` rewrites exactly the first satisfying element. -/
theorem replaceFirst_append_middle {p : α → Bool} {f : α → α}
    {pre suf : List α} {a : α} (hpre : ∀ t ∈ pre, p t = false)
    (ha : p a = true) :
    replaceFirst p f (pre ++ a :: suf) = pre ++ f a :: suf := by
  induction pre with
  | nil => simp [replaceFirst, ha]
  | cons b bs ih =>
    have hb := hpre b (List.mem_cons_self b bs)
    have ih' := ih fun t ht => hpre t (List.mem_cons_of_mem b ht)
    simp [replaceFirst, hb, ih']

/-- `replaceFirst` preserves length: a swap in place adds no element. -/
theorem replaceFirst_length (p : α → Bool) (f : α → α) (l : List α) :
    (replaceFirst p f l).length = l.length := by
  induction l with
  | nil => rfl
  | cons a as ih =>
    by_cases h : p a = true
    · simp [replaceFirst, h]
    · simp [replaceFirst, h, ih]

/-- After `replaceFirst`, the first satisfying element is the rewritten one,
provided the rewrite preserves the predicate. -/
theorem find?_replaceFirst {p : α → Bool} {f : α → α} {l : List α} {a : α}
    (h : l.find? p = some a) (hf : p (f a) = true) :
    (replaceFirst p f l).find? p = some (f a) := by
  induction l with
  | nil => simp at h
  | cons b bs ih =>
    by_cases hb : p b = true
    · rw [List.find?_cons_of_pos _ hb] at h
      cases h
      simp [replaceFirst, hb, List.find?_cons_of_pos _ hf]
    · rw [List.find?_cons_of_neg _ hb] at h
      simp [replaceFirst, hb, List.find?_cons_of_neg _ hb, ih h]

/-- Rewriting the first satisfying element and then rewriting it back is the
identity, provided the first rewrite preserves the predicate and the second
undoes the first on the element `find?` locates. -/
theorem replaceFirst_undo {p : α → Bool} {f g : α → α} {l : List α}
    (h1 : ∀ a, p a = true → p (f a) = true)
    (h2 : ∀ a, l.find? p = some a → g (f a) = a) :
    replaceFirst p g (replaceFirst p f l) = l := by
  induction l with
  | nil => rfl
  | cons b bs ih =>
    by_cases hb : p b = true
    · have hfind : (b :: bs).find? p = some b := List.find?_cons_of_pos _ hb
      simp [replaceFirst, hb, h1 b hb, h2 b hfind]
    · have ih' := ih fun a ha => h2 a (by rw [List.find?_cons_of_neg _ hb]; exact ha)
      simp [replaceFirst, hb, ih']

/-- An element located by `find?` makes `any` true. -/
theorem any_of_find? {p : α → Bool} {l : List α} {a : α}
    (h : l.find? p = some a) : l.any p = true := by
  rcases List.find?_some h with hp
  rcases List.mem_of_find?_eq_some h with hm
  exact List.any_eq_true.mpr ⟨a, hm, hp⟩

/-- Mapping a function that fixes every member is the identity. -/
theorem map_id_of_mem {f : α → α} {l : List α}
    (h : ∀ a ∈ l, f a = a) : l.map f = l := by
  induction l with
  | nil => rfl
  | cons a as ih =>
    have ha := h a (List.mem_cons_self a as)
    have ih' := ih fun b hb => h b (List.mem_cons_of_mem a hb)
    simp [ha, ih']

/-- Folding `addTrack` over a track list appends one sender per track and
changes nothing else of the connection. -/
theorem foldl_addTrack (l : List MediaStreamTrack) (pc : RTCPeerConnection) :
    l.foldl (fun pc t => pc.addTrack t) pc =
      { pc with senders := pc.senders ++ l.map (fun t => { track := some t }) } := by
  induction l generalizing pc with
  | nil => simp only [List.foldl_nil, List.map_nil, List.append_nil]
  | cons t ts ih =>
    simp only [List.foldl_cons, List.map_cons]
    rw [ih]
    simp only [RTCPeerConnection.addTrack, List.append_assoc, List.cons_append,
      List.nil_append]

/-- The connection `createPeerConnection` builds for an initiator: one
sender per track of the call stream, the generated offer stored as local
description, nothing else set. -/
def initiatorPc (d : RTCSessionDescription) (stream : MediaStream) :
    RTCPeerConnection :=
  { senders := stream.getTracks.map (fun t => { track := some t }),
    localDescription := some d }

/-- The offer envelope `createPeerConnection` publishes as initiator. -/
def offerEnvelope (selfId : String) (d : RTCSessionDescription)
    (pid : String) : Envelope :=
  { kind := SignalKind.offerK, to_ := pid, from_ := selfId, offer := some d }

/-- Evaluating `createPeerConnection` as initiator on a registry with no
entry for the target id: appends exactly one initiator entry and sends
exactly one offer envelope. -/
theorem createPeerConnection_initiator (selfId : String)
    (d : RTCSessionDescription) (pid : String) (stream : MediaStream)
    (s : MCState)
    (h : s.peerConnections.any (fun p => p.userId == pid) = false) :
    createPeerConnection selfId d pid stream true s =
      ({ s with peerConnections :=
                  s.peerConnections ++
                    [{ userId := pid, connection := initiatorPc d stream }] },
       [offerEnvelope selfId d pid]) := by
  simp [createPeerConnection, h, foldl_addTrack, initiatorPc, offerEnvelope,
    RTCPeerConnection.setLocalDescription]

/-- The `startCall` fan-out loop over a duplicate-free participant list
disjoint from the registry: one initiator entry and one offer envelope per
participant other than the local user, in list order. -/
theorem startCallLoop_spec (selfId : String)
    (offers : String → RTCSessionDescription) (stream : MediaStream)
    (ps : List String) (s : MCState) (out : List Envelope)
    (hnd : ps.Nodup)
    (hdisj : ∀ pid ∈ ps, s.peerConnections.any (fun p => p.userId == pid) = false) :
    startCallLoop selfId offers stream ps (s, out) =
      ({ s with peerConnections :=
                  s.peerConnections ++
                    (ps.filter (fun pid => pid != selfId)).map
                      (fun pid =>
                        { userId := pid, connection := initiatorPc (offers pid) stream }) },
       out ++ (ps.filter (fun pid => pid != selfId)).map
         (fun pid => offerEnvelope selfId (offers pid) pid)) := by
  induction ps generalizing s out with
  | nil => simp [startCallLoop]
  | cons pid rest ih =>
    rcases List.nodup_cons.mp hnd with ⟨hmem, hndrest⟩
    by_cases hps : (pid == selfId) = true
    · have hfil : (pid != selfId) = false := by simp_all [bne]
      have ih' := ih s out hndrest
        (fun q hq => hdisj q (List.mem_cons_of_mem pid hq))
      simp [startCallLoop, hps, hfil, ih']
    · have hfil : (pid != selfId) = true := by simp_all [bne]
      have hany := hdisj pid (List.mem_cons_self pid rest)
      have hstep := createPeerConnection_initiator selfId (offers pid) pid stream s hany
      have hdisj' : ∀ q ∈ rest,
          (({ s with peerConnections :=
                       s.peerConnections ++
                         [{ userId := pid, connection := initiatorPc (offers pid) stream }] } :
            MCState).peerConnections.any (fun p => p.userId == q)) = false := by
        intro q hq
        have hqs := hdisj q (List.mem_cons_of_mem pid hq)
        have hqpid : (pid == q) = false := by
          have : q ≠ pid := fun hEq => hmem (hEq ▸ hq)
          simp [beq_eq_false_iff_ne]
          exact fun hEq => this hEq.symm
        simp [List.any_append, hqs, hqpid]
      have ih' := ih _ (out ++ [offerEnvelope selfId (offers pid) pid]) hndrest hdisj'
      simp only [startCallLoop, hps, if_false, Bool.false_eq_true, hstep]
      rw [ih']
      simp [hfil, List.append_assoc]

/-! ## Concrete fixtures -/

/-- The local user's id in the concrete scenarios. -/
def meId : String := "me"

/-- A remote participant id. -/
def aId : String := "A"

/-- Another remote participant id. -/
def bId : String := "B"

/-- A microphone audio track. -/
def micTrack : MediaStreamTrack := { id := 0, kind := TrackKind.aud }

/-- A camera video track. -/
def camT : MediaStreamTrack := { id := 1, kind := TrackKind.vid }

/-- A screen-capture video track. -/
def scrT : MediaStreamTrack := { id := 2, kind := TrackKind.vid }

/-- The stream `getUserMedia({audio: true, video: false})` yields. -/
def micStream : MediaStream := ⟨[micTrack]⟩

/-! ## The claims -/

/-- An offer envelope from participant `A` addressed to the local user. -/
def c1off : OfferPayload := { to_ := meId, from_ := aId, offer := ⟨0⟩ }

/-- C1: contrary to the claim, the per-id uniqueness of registry entries
does not survive every interleaving of `createPeerConnection` and
`handleOffer`: after the local user starts a call toward `A`
(one roster-driven creation) and an inbound offer from `A` is then
handled, the registry holds two entries for `A` — `handleOffer` appends
its entry without any existence check (line 323). -/
theorem C1_second_creation_duplicates :
    (((onBroadcast meId ⟨1⟩ (Incoming.offerMsg c1off)
          (startCall meId (some micStream) (fun _ => ⟨5⟩) [meId, aId] idleState).1).1.peerConnections.filter
        (fun q => q.userId == aId)).length = 2) := by decide

/-- An ice-candidate envelope from `A` addressed to the local user. -/
def c2ice : IcePayload := { to_ := meId, from_ := aId, candidate := some ⟨7⟩ }

/-- An in-call state holding the microphone stream, with no session yet. -/
def c2state : MCState := { isInCall := true, localStream := some micStream }

/-- C2: contrary to the claim, a candidate arriving before a session for
its sender exists is silently dropped, not buffered: `handleIceCandidate`
leaves the state unchanged (lines 336-341 find no entry), and once the
session for `A` is subsequently created by an offer, its connection has
received no candidate at all. -/
theorem C2_early_candidate_dropped :
    handleIceCandidate c2ice c2state = c2state
  ∧ ((handleOffer meId ⟨1⟩ c1off (handleIceCandidate c2ice c2state)).1.peerConnections.map
       (fun p => p.connection.addedCandidates) = [[]]) := by decide

/-- A connection that has completed the description exchange
(both descriptions set): a connected session in the spec's sense. -/
def c3connA : RTCPeerConnection :=
  { senders := [{ track := some micTrack }],
    localDescription := some ⟨5⟩, remoteDescription := some ⟨6⟩ }

/-- An active-call state with connected sessions for `A` and `B`. -/
def c3state : MCState :=
  { isInCall := true, localStream := some micStream,
    peerConnections := [{ userId := aId, connection := c3connA },
                        { userId := bId, connection := c3connA }] }

/-- The component during that call, with `A` and `B` in the roster. -/
def c3comp : Component := { roster := [meId, aId, bId], state := c3state }

/-- C3: contrary to the claim, when participant `A` leaves the roster
while their session is connected, nothing removes or closes that session:
the component's sole effect hook depends only on `roomId` and `user`, so a
`participants` prop change leaves the call state untouched and the
registry keeps an open entry for the departed `A`. -/
theorem C3_leaver_session_not_removed :
    ((applyEvent meId (Event.rosterChange [meId, bId]) c3comp).1.state = c3state)
  ∧ ((applyEvent meId (Event.rosterChange [meId, bId]) c3comp).1.state.peerConnections.map
       (fun p => (p.userId, p.connection.closed)) = [(aId, false), (bId, false)]) := by decide

/-- All tracks the component currently holds: those of the local
(microphone/camera) stream and those of the screen stream. -/
def heldTracks (s : MCState) : List MediaStreamTrack :=
  ((s.localStream.map MediaStream.getTracks).getD []) ++
  ((s.screenStream.map MediaStream.getTracks).getD [])

/-- C4: `endCall`, from any state, returns the component to the idle
state (all toggle flags off, no stream, empty registry), closes every
registered connection, and stops every held track — the very tracks held,
by identity; invoked when already idle it changes nothing and touches no
track or connection. -/
theorem C4_endCall_spec (s : MCState) :
    (endCall s).1 = idleState
  ∧ (endCall s).2.closedConnections = s.peerConnections.map (fun p => p.connection.close)
  ∧ ((endCall s).2.closedConnections.all (fun pc => pc.closed)) = true
  ∧ (endCall s).2.stoppedTracks.map MediaStreamTrack.id = (heldTracks s).map MediaStreamTrack.id
  ∧ ((endCall s).2.stoppedTracks.all (fun t => t.stopped)) = true
  ∧ endCall idleState = (idleState, {}) := by
  refine ⟨rfl, rfl, ?_, ?_, ?_, rfl⟩
  · simp [endCall, RTCPeerConnection.close, List.all_eq_true]
  · have h : MediaStreamTrack.id ∘ MediaStreamTrack.stop = MediaStreamTrack.id :=
      funext fun t => rfl
    simp [endCall, heldTracks, h]
  · simp [endCall, MediaStreamTrack.stop, List.all_eq_true]

/-- C5: `startCall` with a failed audio acquisition leaves any state
untouched and creates nothing; with a granted microphone stream, starting
from idle, it stores the stream, enters the call with mute off, and — for
a duplicate-free roster — registers exactly one initiator session and
publishes exactly one offer envelope per participant other than the local
user, in roster order. -/
theorem C5_startCall_spec (selfId : String) (stream : MediaStream)
    (offers : String → RTCSessionDescription) (ps : List String) (s : MCState)
    (hnd : ps.Nodup) :
    startCall selfId none offers ps s = (s, [])
  ∧ (startCall selfId (some stream) offers ps idleState).1.isInCall = true
  ∧ (startCall selfId (some stream) offers ps idleState).1.isMuted = false
  ∧ (startCall selfId (some stream) offers ps idleState).1.localStream = some stream
  ∧ (startCall selfId (some stream) offers ps idleState).1.peerConnections
      = (ps.filter (fun pid => pid != selfId)).map
          (fun pid => { userId := pid, connection := initiatorPc (offers pid) stream })
  ∧ (startCall selfId (some stream) offers ps idleState).2
      = (ps.filter (fun pid => pid != selfId)).map
          (fun pid => offerEnvelope selfId (offers pid) pid) := by
  have hloop := startCallLoop_spec selfId offers stream ps
    { isInCall := true, isMuted := false, isVideoOn := false,
      isScreenSharing := false, localStream := some stream,
      screenStream := none, peerConnections := [] }
    [] hnd (fun pid _ => rfl)
  refine ⟨rfl, ?_, ?_, ?_, ?_, ?_⟩ <;>
    simp [startCall, hloop, idleState]

/-- C5 witness: the theorem at the concrete roster `[me, A, B]`. -/
theorem C5_startCall_spec_witness :
    startCall meId none (fun _ => ⟨5⟩) [meId, aId, bId] c2state = (c2state, [])
  ∧ (startCall meId (some micStream) (fun _ => ⟨5⟩) [meId, aId, bId] idleState).1.isInCall = true
  ∧ (startCall meId (some micStream) (fun _ => ⟨5⟩) [meId, aId, bId] idleState).1.isMuted = false
  ∧ (startCall meId (some micStream) (fun _ => ⟨5⟩) [meId, aId, bId] idleState).1.localStream = some micStream
  ∧ (startCall meId (some micStream) (fun _ => ⟨5⟩) [meId, aId, bId] idleState).1.peerConnections
      = ([meId, aId, bId].filter (fun pid => pid != meId)).map
          (fun pid => { userId := pid, connection := initiatorPc ⟨5⟩ micStream })
  ∧ (startCall meId (some micStream) (fun _ => ⟨5⟩) [meId, aId, bId] idleState).2
      = ([meId, aId, bId].filter (fun pid => pid != meId)).map
          (fun pid => offerEnvelope meId ⟨5⟩ pid) :=
  C5_startCall_spec meId micStream (fun _ => ⟨5⟩) [meId, aId, bId] c2state (by decide)

/-- A state receiving an offer while holding both the microphone stream
and a separate screen-capture stream. -/
def c6state : MCState :=
  { isInCall := true, isScreenSharing := true,
    localStream := some micStream, screenStream := some ⟨[scrT]⟩ }

/-- C6 counterexample: a screen-capture track is held when the offer from
`A` arrives, yet the connection created for the answer carries only the
microphone track — the held screen track is not attached, refuting
"attaches all held local tracks" as stated. -/
theorem C6_counterexample_screen_not_attached :
    c6state.screenStream = some ⟨[scrT]⟩
  ∧ ((handleOffer meId ⟨1⟩ c1off c6state).1.peerConnections.map
       (fun p => p.connection.senders) = [[{ track := some micTrack }]])
  ∧ ((handleOffer meId ⟨1⟩ c1off c6state).1.peerConnections.map
       (fun p => p.connection.senders.any (fun sd => sd.track == some scrT)) = [false]) := by
  decide

/-- C6 as amended: with no held local (microphone/camera) stream the offer
is rejected outright — no connection is created and no answer is sent;
otherwise the receiver appends a fresh session for the offer's sender
whose connection attaches every track of the held local stream (a
separately held screen-capture stream is not attached), has the remote
description set from the offer payload and the generated answer as local
description, and replies with exactly one answer envelope addressed to the
offer's sender. -/
theorem C6_handleOffer_spec (selfId : String) (ans : RTCSessionDescription)
    (pay : OfferPayload) (s : MCState) :
    (s.localStream = none → handleOffer selfId ans pay s = (s, []))
  ∧ (∀ ls, s.localStream = some ls →
       (handleOffer selfId ans pay s).1.peerConnections
           = s.peerConnections ++
               [{ userId := pay.from_,
                  connection :=
                    { senders := ls.getTracks.map (fun t => { track := some t }),
                      localDescription := some ans,
                      remoteDescription := some pay.offer } }]
         ∧ (handleOffer selfId ans pay s).2
           = [{ kind := SignalKind.answerK, to_ := pay.from_, from_ := selfId,
                answer := some ans }]) := by
  constructor
  · intro h
    simp [handleOffer, h]
  · intro ls hls
    constructor
    · simp [handleOffer, hls, foldl_addTrack, RTCPeerConnection.setRemoteDescription,
        RTCPeerConnection.setLocalDescription]
    · simp [handleOffer, hls]

/-- After turning screen share on, a connection whose first video sender
held the camera track has that same sender holding the screen track. -/
theorem find?_attachScreenTrack (scrTk camTk : MediaStreamTrack)
    (pc : RTCPeerConnection) (hkind : scrTk.kind = TrackKind.vid)
    (hfind : pc.senders.find? senderIsVideo = some { track := some camTk }) :
    (attachScreenTrack scrTk pc).senders.find? senderIsVideo
      = some { track := some scrTk } := by
  have hany := any_of_find? hfind
  have hpf : senderIsVideo { track := some scrTk } = true := by
    simp [senderIsVideo, hkind]
  have h2 := find?_replaceFirst (f := fun sd => { sd with track := some scrTk })
    hfind (by simpa using hpf)
  simp only [attachScreenTrack, hany, if_true]
  simpa using h2

/-- Swapping the camera track for the screen track and then restoring the
camera is the identity on a connection whose first video sender held the
camera track. -/
theorem attach_restore_id (scrTk camTk : MediaStreamTrack)
    (pc : RTCPeerConnection) (hkind : scrTk.kind = TrackKind.vid)
    (hfind : pc.senders.find? senderIsVideo = some { track := some camTk }) :
    restoreCameraTrack (some camTk) (attachScreenTrack scrTk pc) = pc := by
  have hany := any_of_find? hfind
  have hpf : senderIsVideo { track := some scrTk } = true := by
    simp [senderIsVideo, hkind]
  have hfind2 := find?_attachScreenTrack scrTk camTk pc hkind hfind
  have hany2 := any_of_find? hfind2
  have hundo : replaceFirst senderIsVideo (fun sd => { sd with track := some camTk })
      (replaceFirst senderIsVideo (fun sd => { sd with track := some scrTk })
        pc.senders) = pc.senders := by
    apply replaceFirst_undo
    · intro a ha
      simpa using hpf
    · intro a hfa
      rw [hfind] at hfa
      cases hfa
      rfl
  simp only [attachScreenTrack, hany, if_true] at hfind2 hany2 ⊢
  simp only [restoreCameraTrack, hany2, if_true]
  simp [hundo]

/-- Turning screen share on adds no sender to a connection that already
has a video sender: the swap is in place. -/
theorem attachScreenTrack_length (t : MediaStreamTrack) (pc : RTCPeerConnection)
    (h : pc.senders.any senderIsVideo = true) :
    (attachScreenTrack t pc).senders.length = pc.senders.length := by
  unfold attachScreenTrack
  rw [if_pos h]
  simp [replaceFirst_length]

/-- C7: toggling screen share on while the camera is on keeps the very
same sessions (same ids, in order) and the same number of senders on each
connection (no attachment is added), and switches the first video sender
of every connection to the screen track; toggling it off afterwards
restores the exact original state — camera track back on the same sender
of every session. -/
theorem C7_screenShare_swap_roundTrip (s : MCState) (scrStream ls : MediaStream)
    (scrTk camTk : MediaStreamTrack)
    (hshare : s.isScreenSharing = false)
    (hvid : s.isVideoOn = true)
    (hls : s.localStream = some ls)
    (hcam : ls.getVideoTracks.head? = some camTk)
    (hscr : s.screenStream = none)
    (hkind : scrTk.kind = TrackKind.vid)
    (hsend : ∀ p ∈ s.peerConnections,
        p.connection.senders.find? senderIsVideo = some { track := some camTk }) :
    ((toggleScreenShare (some (scrStream, scrTk)) s).peerConnections.map PeerConnection.userId
       = s.peerConnections.map PeerConnection.userId)
  ∧ ((toggleScreenShare (some (scrStream, scrTk)) s).peerConnections.map
        (fun p => p.connection.senders.length)
       = s.peerConnections.map (fun p => p.connection.senders.length))
  ∧ (∀ p ∈ (toggleScreenShare (some (scrStream, scrTk)) s).peerConnections,
       p.connection.senders.find? senderIsVideo = some { track := some scrTk })
  ∧ toggleScreenShare none (toggleScreenShare (some (scrStream, scrTk)) s) = s := by
  obtain ⟨f1, f2, f3, f4, f5, f6, f7⟩ := s
  simp only at hshare hvid hls hscr hsend
  subst hshare hvid hls hscr
  refine ⟨?_, ?_, ?_, ?_⟩
  · simp only [toggleScreenShare, Bool.not_false, if_true, List.map_map]
    clear hsend
    induction f7 with
    | nil => rfl
    | cons q qs ih =>
      simp only [List.map_cons, ih]
      rfl
  · simp only [toggleScreenShare, Bool.not_false, if_true, List.map_map]
    induction f7 with
    | nil => rfl
    | cons q qs ih =>
      have hq := hsend q (List.mem_cons_self q qs)
      have hanyq := any_of_find? hq
      have ih' := ih fun r hr => hsend r (List.mem_cons_of_mem q hr)
      simp only [List.map_cons, ih']
      have hlen := attachScreenTrack_length scrTk q.connection hanyq
      simp [Function.comp, hlen]
  · intro p hp
    simp only [toggleScreenShare, Bool.not_false, if_true] at hp
    simp only [List.mem_map] at hp
    obtain ⟨q, hq, rfl⟩ := hp
    exact find?_attachScreenTrack scrTk camTk q.connection hkind (hsend q hq)
  · simp only [toggleScreenShare, Bool.not_false, if_true, Bool.not_true,
      Bool.false_eq_true, if_false, hcam, List.map_map, MCState.mk.injEq,
      true_and, and_true]
    apply map_id_of_mem
    intro p hp
    have h := attach_restore_id scrTk camTk p.connection hkind (hsend p hp)
    simp [Function.comp, h]

/-- A connection carrying the microphone and the camera track. -/
def c7pc : RTCPeerConnection :=
  { senders := [{ track := some micTrack }, { track := some camT }] }

/-- An in-call state with camera on and one session toward `A`. -/
def c7state : MCState :=
  { isInCall := true, isVideoOn := true,
    localStream := some ⟨[micTrack, camT]⟩,
    peerConnections := [{ userId := aId, connection := c7pc }] }

/-- The stream `getDisplayMedia` yields in the concrete scenario. -/
def c7scr : MediaStream := ⟨[scrT]⟩

/-- C7 witness: the round trip at a concrete one-session call state. -/
theorem C7_screenShare_swap_roundTrip_witness :
    ((toggleScreenShare (some (c7scr, scrT)) c7state).peerConnections.map PeerConnection.userId
       = c7state.peerConnections.map PeerConnection.userId)
  ∧ ((toggleScreenShare (some (c7scr, scrT)) c7state).peerConnections.map
        (fun p => p.connection.senders.length)
       = c7state.peerConnections.map (fun p => p.connection.senders.length))
  ∧ (∀ p ∈ (toggleScreenShare (some (c7scr, scrT)) c7state).peerConnections,
       p.connection.senders.find? senderIsVideo = some { track := some scrT })
  ∧ toggleScreenShare none (toggleScreenShare (some (c7scr, scrT)) c7state) = c7state :=
  C7_screenShare_swap_roundTrip c7state c7scr ⟨[micTrack, camT]⟩ scrT camT
    rfl rfl rfl (by decide) rfl rfl (by decide)

/-- The state right after screen share was toggled on from `c7state`. -/
def c8on : MCState := toggleScreenShare (some (c7scr, scrT)) c7state

/-- C8: contrary to the claim, the `onended` callback (fired when the user
stops sharing via the OS/browser chrome) does not reproduce an explicit
toggle-off: it clears the flag and drops the screen stream, but leaves the
dead screen track on every session's video sender, where an explicit
toggle-off restores the camera track. -/
theorem C8_onended_differs_from_toggleOff :
    (screenTrackOnEnded c8on).isScreenSharing = false
  ∧ (screenTrackOnEnded c8on).screenStream = none
  ∧ ((toggleScreenShare none c8on).peerConnections.map
       (fun p => p.connection.senders.find? senderIsVideo)
     = [some { track := some camT }])
  ∧ ((screenTrackOnEnded c8on).peerConnections.map
       (fun p => p.connection.senders.find? senderIsVideo)
     = [some { track := some scrT }])
  ∧ screenTrackOnEnded c8on ≠ toggleScreenShare none c8on := by
  decide

/-- C9: envelopes the call state must ignore leave it untouched: any
offer, answer, or ice-candidate broadcast whose `to` field names another
participant is dropped at the subscription boundary, and an answer or
ice-candidate broadcast from a sender with no registered session is a
silent no-op — no session is created or modified and nothing is sent. -/
theorem C9_foreign_envelope_noop (selfId : String) (ans : RTCSessionDescription)
    (s : MCState) :
    (∀ msg : Incoming, msg.to_ ≠ selfId → onBroadcast selfId ans msg s = (s, []))
  ∧ (∀ p : AnswerPayload, s.peerConnections.any (fun e => e.userId == p.from_) = false →
       onBroadcast selfId ans (Incoming.answerMsg p) s = (s, []))
  ∧ (∀ p : IcePayload, s.peerConnections.any (fun e => e.userId == p.from_) = false →
       onBroadcast selfId ans (Incoming.iceMsg p) s = (s, [])) := by
  refine ⟨?_, ?_, ?_⟩
  · intro msg h
    cases msg with
    | offerMsg p =>
      have hb : (p.to_ == selfId) = false :=
        beq_eq_false_iff_ne.mpr (by simpa [Incoming.to_] using h)
      simp [onBroadcast, hb]
    | answerMsg p =>
      have hb : (p.to_ == selfId) = false :=
        beq_eq_false_iff_ne.mpr (by simpa [Incoming.to_] using h)
      simp [onBroadcast, hb]
    | iceMsg p =>
      have hb : (p.to_ == selfId) = false :=
        beq_eq_false_iff_ne.mpr (by simpa [Incoming.to_] using h)
      simp [onBroadcast, hb]
  · intro p h
    have hall : ∀ e ∈ s.peerConnections, (e.userId == p.from_) = false := by
      intro e he
      rcases List.any_eq_false.mp h e he with hne
      simpa using hne
    have hfix : handleAnswer p s = s := by
      simp [handleAnswer, replaceFirst_of_forall_neg hall]
    by_cases hto : (p.to_ == selfId) = true
    · simp [onBroadcast, hto, hfix]
    · simp [onBroadcast, hto]
  · intro p h
    have hall : ∀ e ∈ s.peerConnections, (e.userId == p.from_) = false := by
      intro e he
      rcases List.any_eq_false.mp h e he with hne
      simpa using hne
    have hfix : handleIceCandidate p s = s := by
      cases hc : p.candidate with
      | none => simp [handleIceCandidate, hc]
      | some c => simp [handleIceCandidate, hc, replaceFirst_of_forall_neg hall]
    by_cases hto : (p.to_ == selfId) = true
    · simp [onBroadcast, hto, hfix]
    · simp [onBroadcast, hto]

/-- C10: `toggleMute` never touches the session registry (no session is
created, destroyed, or renegotiated; no connection's attachments change),
never touches the screen stream or the call/video/share flags, is a no-op
without a held local stream or without an audio track in it, and with a
held first audio track only flips that track's `enabled` flag in place —
every other track of the stream is untouched — while mirroring the mute
indicator to the track's previous enablement. -/
theorem C10_toggleMute_spec (s : MCState) (pre suf : List MediaStreamTrack)
    (a : MediaStreamTrack)
    (hls : s.localStream = some ⟨pre ++ a :: suf⟩)
    (hpre : ∀ t ∈ pre, (t.kind == TrackKind.aud) = false)
    (ha : a.kind = TrackKind.aud) :
    (∀ u : MCState, (toggleMute u).peerConnections = u.peerConnections
        ∧ (toggleMute u).screenStream = u.screenStream
        ∧ (toggleMute u).isInCall = u.isInCall
        ∧ (toggleMute u).isVideoOn = u.isVideoOn
        ∧ (toggleMute u).isScreenSharing = u.isScreenSharing)
  ∧ (∀ u : MCState, u.localStream = none → toggleMute u = u)
  ∧ (∀ u : MCState, ∀ us : MediaStream, u.localStream = some us →
       us.getAudioTracks = [] → toggleMute u = u)
  ∧ (toggleMute s).localStream = some ⟨pre ++ { a with enabled := !a.enabled } :: suf⟩
  ∧ (toggleMute s).isMuted = a.enabled := by
  have hhead : (⟨pre ++ a :: suf⟩ : MediaStream).getAudioTracks.head? = some a := by
    have hfil : pre.filter (fun t => t.kind == TrackKind.aud) = [] :=
      List.filter_eq_nil_iff.mpr (by intro t ht; simp [hpre t ht])
    simp [MediaStream.getAudioTracks, List.filter_append, List.filter_cons, ha, hfil]
  refine ⟨?_, ?_, ?_, ?_, ?_⟩
  · intro u
    cases h : u.localStream with
    | none => simp [toggleMute, h]
    | some us =>
      cases h2 : us.getAudioTracks.head? with
      | none => simp [toggleMute, h, h2]
      | some t => simp [toggleMute, h, h2]
  · intro u h
    simp [toggleMute, h]
  · intro u us h hga
    simp [toggleMute, h, hga]
  · rw [toggleMute, hls]
    simp only [hhead]
    have hrep := @replaceFirst_append_middle MediaStreamTrack
      (fun t => t.kind == TrackKind.aud)
      (fun t => { t with enabled := !a.enabled }) pre suf a hpre (by simp [ha])
    simp [hrep]
  · rw [toggleMute, hls]
    simp [hhead]

/-- C10 witness: the theorem at the concrete state `c7state`, whose local
stream is the microphone track followed by the camera track. -/
theorem C10_toggleMute_spec_witness :
    (∀ u : MCState, (toggleMute u).peerConnections = u.peerConnections
        ∧ (toggleMute u).screenStream = u.screenStream
        ∧ (toggleMute u).isInCall = u.isInCall
        ∧ (toggleMute u).isVideoOn = u.isVideoOn
        ∧ (toggleMute u).isScreenSharing = u.isScreenSharing)
  ∧ (∀ u : MCState, u.localStream = none → toggleMute u = u)
  ∧ (∀ u : MCState, ∀ us : MediaStream, u.localStream = some us →
       us.getAudioTracks = [] → toggleMute u = u)
  ∧ (toggleMute c7state).localStream
      = some ⟨[] ++ { micTrack with enabled := !micTrack.enabled } :: [camT]⟩
  ∧ (toggleMute c7state).isMuted = micTrack.enabled :=
  C10_toggleMute_spec c7state [] [camT] micTrack rfl (by decide) rfl
